import Mathlib

/-!
Shallow embedding of the LinkedIn scraping extension core
(src/background/background.js and src/utils/storage.js) and proofs about
the frozen behavioural claims.

Conventions of the embedding:
- JavaScript numbers that hold timestamps, counts and byte sizes are
  modelled as Nat (Int where a subtraction may go negative).
- JavaScript Maps keyed by tab id are association lists with Map.set
  replace-or-append semantics; chrome.storage.local is an association
  list from storage key to stored value.
- Statuses are the literal strings the source stores.
- Fallible operations return Except; a try/catch that swallows the
  exception is modelled by the catch result.
-/

namespace LinkedInScraper

/-- A scraped result record. The source stores free-form job objects;
the fields relevant to deduplication and export are kept: the dedup key
fields jobId and jobUrl, plus applicants as a representative payload
field (one that cleanJobData neither trims nor date-parses, keeping the
model executable; the trimmed and date fields play no role in any
claim). -/
structure JobRecord where
  jobId : String
  jobUrl : String
  applicants : String
deriving DecidableEq, Repr

/-- A persisted session record (the resultData object written under the
key scraping_result_ followed by the session id in storage.js). -/
structure Session where
  id : String
  startTime : Nat
  endTime : Nat
  status : String
  jobs : List JobRecord
deriving DecidableEq, Repr

/-- An entry of the scrapingIndex array (storage.js updateScrapingIndex). -/
structure IndexEntry where
  id : String
  timestamp : Nat
  jobCount : Nat
  duration : Nat
  status : String
deriving DecidableEq, Repr

/-- The slice of chrome.storage.local owned by the StorageManager,
together with the quota readings chrome.storage.local.getBytesInUse and
chrome.storage.local.QUOTA_BYTES return. -/
structure StorageState where
  records : List (String × Session)
  index : List IndexEntry
  bytesInUse : Nat
  quota : Nat
deriving DecidableEq, Repr

/-- storage.js deduplicateJobs: the composite key is the concatenation
of jobId and jobUrl with an underscore between them. -/
def dedupKey (j : JobRecord) : String :=
  j.jobId ++ "_" ++ j.jobUrl

/-- The filter with a mutable seen set inside deduplicateJobs, as a
recursion carrying the set of keys already seen. -/
def deduplicateJobsGo : List JobRecord → List String → List JobRecord
  | [], _ => []
  | j :: rest, seen =>
    if seen.contains (dedupKey j) then deduplicateJobsGo rest seen
    else j :: deduplicateJobsGo rest (dedupKey j :: seen)

/-- storage.js deduplicateJobs. -/
def deduplicateJobs (jobs : List JobRecord) : List JobRecord :=
  deduplicateJobsGo jobs []

/-- storage.js cleanJobData restricted to the modelled fields: empty
values become the sentinel N/A. None of jobId, jobUrl and applicants is
in textFields or among the date fields, so no further rewriting applies
to them. -/
def cleanJobData (j : JobRecord) : JobRecord :=
  { jobId := if j.jobId = "" then "N/A" else j.jobId
    jobUrl := if j.jobUrl = "" then "N/A" else j.jobUrl
    applicants := if j.applicants = "" then "N/A" else j.applicants }

/-- storage.js optimizeDataForStorage: clean each job, then deduplicate.
The jobDescription compression step only touches a field outside the
model. -/
def optimizeDataForStorage (s : Session) : Session :=
  { s with jobs := deduplicateJobs (s.jobs.map cleanJobData) }

/-- The index entry updateScrapingIndex builds from a session
(storage.js lines 260 to 269, restricted to the modelled fields). -/
def mkIndexEntry (s : Session) : IndexEntry :=
  { id := s.id
    timestamp := s.startTime
    jobCount := s.jobs.length
    duration := s.endTime - s.startTime
    status := s.status }

/-- Replace the first index entry carrying the given id, as the
findIndex plus assignment in updateScrapingIndex does. -/
def replaceFirstEntry : List IndexEntry → IndexEntry → List IndexEntry
  | [], _ => []
  | x :: rest, e => if x.id = e.id then e :: rest else x :: replaceFirstEntry rest e

/-- The upsert step of updateScrapingIndex: replace in place when an
entry with the same id exists, otherwise unshift to the front. -/
def upsertEntry (index : List IndexEntry) (e : IndexEntry) : List IndexEntry :=
  if index.any (fun x => x.id == e.id) then replaceFirstEntry index e
  else e :: index

/-- Remove every stored record whose key is among the given ids
(deleteScrapingSession / deleteMultipleSessions on the record side). -/
def removeRecords (records : List (String × Session)) (ids : List String) :
    List (String × Session) :=
  records.filter (fun r => !(ids.contains r.1))

/-- storage.js updateScrapingIndex with the entry cap as a parameter.
After the upsert, entries beyond the cap are spliced off and their
session records deleted; the splice result is what the final write of
scrapingIndex persists. -/
def updateScrapingIndexCap (cap : Nat) (st : StorageState) (s : Session) :
    StorageState :=
  let index1 := upsertEntry st.index (mkIndexEntry s)
  if cap < index1.length then
    { st with
      index := index1.take cap
      records := removeRecords st.records ((index1.drop cap).map (fun e => e.id)) }
  else
    { st with index := index1 }

/-- maxIndexEntries in storage.js updateScrapingIndex. -/
def maxIndexEntries : Nat := 1000

/-- storage.js updateScrapingIndex with the hard-coded cap. -/
def updateScrapingIndex (st : StorageState) (s : Session) : StorageState :=
  updateScrapingIndexCap maxIndexEntries st s

/-- The stable ascending sort by timestamp performed at the start of
performStorageCleanup. -/
def sortByTimestamp (index : List IndexEntry) : List IndexEntry :=
  List.insertionSort (fun a b => a.timestamp ≤ b.timestamp) index

/-- storage.js performStorageCleanup: sort a copy of the index oldest
first, take floor(length times 0.25) sessions and delete them through
deleteMultipleSessions (records removed, index entries filtered out of
the stored, original-order index). -/
def performStorageCleanup (st : StorageState) : StorageState :=
  let sorted := sortByTimestamp st.index
  let removeCount := st.index.length / 4
  let sessionsToRemove := sorted.take removeCount
  if 0 < sessionsToRemove.length then
    let ids := sessionsToRemove.map (fun e => e.id)
    { st with
      records := removeRecords st.records ids
      index := st.index.filter (fun e => !(ids.contains e.id)) }
  else st

/-- storage.js checkStorageQuota: usagePercent = bytesInUse / quota * 100;
cleanup runs when it exceeds 80. The comparison is expressed without
division: bytesInUse / quota * 100 > 80 iff 100 * bytesInUse > 80 * quota
(also at quota = 0, where the source compares against Infinity or NaN). -/
def checkStorageQuota (st : StorageState) : StorageState :=
  if 80 * st.quota < 100 * st.bytesInUse then performStorageCleanup st else st

/-- chrome.storage.local.set on a record key: overwrite when present,
append otherwise. -/
def setRecord (records : List (String × Session)) (key : String) (s : Session) :
    List (String × Session) :=
  if records.any (fun r => r.1 == key) then
    records.map (fun r => if r.1 = key then (key, s) else r)
  else records ++ [(key, s)]

/-- storage.js saveScrapingSession: optimize, check quota (evicting if
usage is high), write the record, then upsert the index entry. The
statistics update only touches the storageStats object, outside the
model. -/
def saveScrapingSession (st : StorageState) (sessionData : Session) : StorageState :=
  let optimizedData := optimizeDataForStorage sessionData
  let st1 := checkStorageQuota st
  let st2 := { st1 with records := setRecord st1.records sessionData.id optimizedData }
  updateScrapingIndex st2 sessionData

/-- Milliseconds per day, as in background.js cleanupOldData. -/
def msPerDay : Nat := 24 * 60 * 60 * 1000

/-- background.js cleanupOldData: entries with timestamp strictly greater
than the cutoff are kept, the rest are expired; expired records and index
entries are removed when at least one entry expired. The cutoff is an Int
because the subtraction may go negative. -/
def cleanupOldData (st : StorageState) (now : Nat) (retentionDays : Nat) :
    StorageState :=
  let cutoffTime : Int := (now : Int) - (retentionDays : Int) * (msPerDay : Int)
  let validEntries := st.index.filter (fun e => decide (cutoffTime < (e.timestamp : Int)))
  let expiredIds :=
    (st.index.filter (fun e => !(decide (cutoffTime < (e.timestamp : Int))))).map
      (fun e => e.id)
  if 0 < expiredIds.length then
    { st with records := removeRecords st.records expiredIds, index := validEntries }
  else st

/-! Export paths. storage.js exportData throws for unsupported formats and
its catch block rethrows, so the caller of the StorageManager sees the
error; background.js exportData also throws in its switch default, but
its catch block only logs, and the message dispatcher then answers
success: true. -/

/-- The object storage.js exportData resolves with. -/
structure ExportPayload where
  data : String
  filename : String
  mimeType : String
deriving DecidableEq, Repr

/-- A single escaped CSV cell (quote doubling plus surrounding quotes). -/
def csvEscape (v : String) : String :=
  "\"" ++ v.replace "\"" "\"\"" ++ "\""

/-- Field lookup job[header] for the modelled record fields. -/
def csvField (j : JobRecord) (h : String) : String :=
  if h = "jobId" then j.jobId
  else if h = "jobUrl" then j.jobUrl
  else if h = "applicants" then j.applicants
  else ""

/-- storage.js convertJobsToCSV restricted to the modelled columns:
a header line followed by one escaped row per record. -/
def convertJobsToCSV (jobs : List JobRecord) : String :=
  if jobs.length = 0 then ""
  else
    let headers := ["jobId", "jobUrl", "applicants"]
    let rows := jobs.map (fun j =>
      String.intercalate "," (headers.map (fun h => csvEscape (csvField j h))))
    String.intercalate "\n" (String.intercalate "," headers :: rows)

/-- storage.js convertSessionsToCSV: flatten every session into its
records (each tagged with its session id in the source) and reuse the
record CSV conversion. -/
def convertSessionsToCSV (sessions : List Session) : String :=
  convertJobsToCSV (sessions.flatMap (fun s => s.jobs))

/-- A stand-in for JSON.stringify on the exported sessions; the claims
only depend on the export producing some serialized content. -/
def sessionsToJson (sessions : List Session) : String :=
  "[" ++
    String.intercalate ","
      (sessions.map (fun s => "\x7b\"id\":\"" ++ s.id ++ "\"\x7d")) ++
  "]"

/-- storage.js exportData (includeDetails = true path). The switch on
format returns a payload for json and csv, throws XLSX export not
implemented yet for xlsx, and throws Unsupported format otherwise; the
catch block rethrows, so the result is an Except. -/
def exportDataStorage (format : String) (sessions : List Session) (now : Nat) :
    Except String ExportPayload :=
  if format = "json" then
    .ok { data := sessionsToJson sessions
          filename := "linkedin_jobs_" ++ toString now ++ ".json"
          mimeType := "application/json" }
  else if format = "csv" then
    .ok { data := convertSessionsToCSV sessions
          filename := "linkedin_jobs_" ++ toString now ++ ".csv"
          mimeType := "text/csv" }
  else if format = "xlsx" then
    .error "XLSX export not implemented yet"
  else
    .error ("Unsupported format: " ++ format)

/-- A download triggered through chrome.downloads.download. -/
structure Download where
  filename : String
  mimeType : String
  content : String
deriving DecidableEq, Repr

/-- background.js exportData: the switch default throws Unsupported
export format, but the surrounding catch only logs the error, so the
function completes without a download for unsupported formats. -/
def exportDataBackground (format : String) (detailed : List Session) (now : Nat) :
    Option Download :=
  if format = "json" then
    some { filename := "linkedin_jobs_" ++ toString now ++ ".json"
           mimeType := "application/json"
           content := sessionsToJson detailed }
  else if format = "csv" then
    some { filename := "linkedin_jobs_" ++ toString now ++ ".csv"
           mimeType := "text/csv"
           content := convertSessionsToCSV detailed }
  else
    none

/-- The response shape sendResponse receives for EXPORT_DATA. -/
structure ExportResponse where
  success : Bool
deriving DecidableEq, Repr

/-- The EXPORT_DATA branch of background.js handleMessage: await
exportData (whose errors were swallowed), then sendResponse success. -/
def handleExportMessage (format : String) (detailed : List Session) (now : Nat) :
    ExportResponse × Option Download :=
  (⟨true⟩, exportDataBackground format detailed now)

/-! The job orchestrator (background.js LinkedInScrapingManager). -/

/-- The request parameters a scrape is started with. -/
structure ScrapingParams where
  jobTitle : String
  location : String
deriving DecidableEq, Repr

/-- An entry of a job error log. -/
structure ErrorEntry where
  timestamp : Nat
  message : String
deriving DecidableEq, Repr

/-- A live scraping job (background.js startScrapeJob). lastUpdate is
optional because startScrapeJob does not initialize it; it is first set
by handleProgressUpdate. -/
structure ScrapeJob where
  id : String
  tabId : Nat
  params : ScrapingParams
  startTime : Nat
  endTime : Option Nat
  status : String
  progress : Nat
  lastUpdate : Option Nat
  extractedJobs : List JobRecord
  errors : List ErrorEntry
deriving DecidableEq, Repr

/-- An entry of the admission queue (background.js handleStartScraping). -/
structure QueueEntry where
  tabId : Nat
  scrapingParams : ScrapingParams
  timestamp : Nat
deriving DecidableEq, Repr

/-- An entry of the scrapingHistory array. -/
structure HistoryEntry where
  id : String
  params : ScrapingParams
  startTime : Nat
  status : String
  endTime : Option Nat
  extractedCount : Option Nat
deriving DecidableEq, Repr

/-- The mutable state of the LinkedInScrapingManager, plus the sessions
persisted through saveScrapingResults. -/
structure ManagerState where
  activeScrapeJobs : List (Nat × ScrapeJob)
  scrapingQueue : List QueueEntry
  maxConcurrentScrapes : Nat
  scrapingHistory : List HistoryEntry
  savedResults : List Session
deriving DecidableEq, Repr

/-- Map.get on the tab-keyed registry. -/
def mapGet : List (Nat × ScrapeJob) → Nat → Option ScrapeJob
  | [], _ => none
  | (k1, v1) :: rest, k => if k1 = k then some v1 else mapGet rest k

/-- Map.has on the tab-keyed registry. -/
def mapHas (m : List (Nat × ScrapeJob)) (k : Nat) : Bool :=
  (mapGet m k).isSome

/-- Map.set on the tab-keyed registry: replace an existing binding in
place, append a fresh binding at the end. -/
def mapSet : List (Nat × ScrapeJob) → Nat → ScrapeJob → List (Nat × ScrapeJob)
  | [], k, v => [(k, v)]
  | (k1, v1) :: rest, k, v =>
    if k1 = k then (k, v) :: rest else (k1, v1) :: mapSet rest k v

/-- Map.delete on the tab-keyed registry. -/
def mapDelete (m : List (Nat × ScrapeJob)) (k : Nat) : List (Nat × ScrapeJob) :=
  m.filter (fun p => !(p.1 == k))

/-- background.js addToScrapingHistory: unshift a summary entry, keep
the most recent 50. -/
def addToScrapingHistory (h : List HistoryEntry) (job : ScrapeJob) :
    List HistoryEntry :=
  (({ id := job.id, params := job.params, startTime := job.startTime
      status := job.status, endTime := none, extractedCount := none } :
      HistoryEntry) :: h).take 50

/-- background.js updateScrapingHistory: update the first entry with a
matching id in place; leave the history unchanged when the id is absent. -/
def updateScrapingHistory : List HistoryEntry → ScrapeJob → List HistoryEntry
  | [], _ => []
  | e :: rest, job =>
    if e.id = job.id then
      { e with status := job.status, endTime := job.endTime
               extractedCount := some job.extractedJobs.length } :: rest
    else e :: updateScrapingHistory rest job

/-- background.js startScrapeJob (transport to the content script
succeeding): register a running job and record it in the history. -/
def startScrapeJob (st : ManagerState) (tabId : Nat) (params : ScrapingParams)
    (now : Nat) : ManagerState :=
  let job : ScrapeJob :=
    { id := "job_" ++ toString now ++ "_" ++ toString tabId
      tabId := tabId, params := params, startTime := now, endTime := none
      status := "running", progress := 0, lastUpdate := none
      extractedJobs := [], errors := [] }
  { st with
    activeScrapeJobs := mapSet st.activeScrapeJobs tabId job
    scrapingHistory := addToScrapingHistory st.scrapingHistory job }

/-- The three responses handleStartScraping can send. -/
inductive SubmitResponse where
  | rejected (msg : String)
  | queued (position : Nat)
  | accepted
deriving DecidableEq, Repr

/-- background.js handleStartScraping: reject when the tab already has
an active job; queue (reporting the queue length after the push) when
the running count has reached the ceiling; start directly otherwise. -/
def handleStartScraping (st : ManagerState) (tabId : Nat)
    (scrapingParams : ScrapingParams) (now : Nat) :
    ManagerState × SubmitResponse :=
  if mapHas st.activeScrapeJobs tabId then
    (st, .rejected "Scraping already active in this tab")
  else if st.maxConcurrentScrapes ≤ st.activeScrapeJobs.length then
    let q := st.scrapingQueue ++ [⟨tabId, scrapingParams, now⟩]
    ({ st with scrapingQueue := q }, .queued q.length)
  else
    (startScrapeJob st tabId scrapingParams now, .accepted)

/-- background.js processScrapingQueue: when the queue is non-empty and
a slot is free, shift the head and start it. At most one queued job is
admitted per call. -/
def processScrapingQueue (st : ManagerState) (now : Nat) : ManagerState :=
  match st.scrapingQueue with
  | [] => st
  | q :: rest =>
    if st.activeScrapeJobs.length < st.maxConcurrentScrapes then
      startScrapeJob { st with scrapingQueue := rest } q.tabId q.scrapingParams now
    else st

/-- The session record saveScrapingResults builds from a finished job. -/
def sessionOfJob (job : ScrapeJob) : Session :=
  { id := job.id, startTime := job.startTime
    endTime := job.endTime.getD 0, status := job.status
    jobs := job.extractedJobs }

/-- background.js cancelScrapeJob: mark cancelled, update the history,
drop the registry entry, then drain the queue. -/
def cancelScrapeJob (st : ManagerState) (tabId : Nat) (now : Nat) : ManagerState :=
  match mapGet st.activeScrapeJobs tabId with
  | none => st
  | some job =>
    let job1 := { job with status := "cancelled", endTime := some now }
    processScrapingQueue
      { st with
        scrapingHistory := updateScrapingHistory st.scrapingHistory job1
        activeScrapeJobs := mapDelete st.activeScrapeJobs tabId }
      now

/-- The progress events a content script reports. -/
inductive ProgressEvent where
  | info (progress : Nat)
  | complete (records : List JobRecord) (progress : Nat)
  | error (message : String)
deriving DecidableEq, Repr

/-- The progress percentage carried by an event. -/
def progressOf : ProgressEvent → Nat
  | .info p => p
  | .complete _ p => p
  | .error _ => 0

/-- background.js handleProgressUpdate: every event refreshes progress
and lastUpdate; complete persists the session, drops the registry entry
and drains the queue; error appends to the error log; info only
refreshes. -/
def handleProgressUpdate (st : ManagerState) (tabId : Nat) (ev : ProgressEvent)
    (now : Nat) : ManagerState :=
  match mapGet st.activeScrapeJobs tabId with
  | none => st
  | some job =>
    let job1 := { job with progress := progressOf ev, lastUpdate := some now }
    match ev with
    | .complete records _ =>
      let job2 := { job1 with
        status := "completed", endTime := some now, extractedJobs := records }
      processScrapingQueue
        { st with
          savedResults := st.savedResults ++ [sessionOfJob job2]
          activeScrapeJobs := mapDelete st.activeScrapeJobs tabId }
        now
    | .error msg =>
      let job2 := { job1 with errors := job1.errors ++ [⟨now, msg⟩] }
      { st with activeScrapeJobs := mapSet st.activeScrapeJobs tabId job2 }
    | .info _ =>
      { st with activeScrapeJobs := mapSet st.activeScrapeJobs tabId job1 }

/-- The stale threshold of background.js checkStaleJobs: 30 minutes. -/
def staleTime : Nat := 30 * 60 * 1000

/-- The staleness test currentTime - job.lastUpdate > staleTime. A job
whose lastUpdate was never set compares NaN against the threshold in
the source, which is false, so it is never considered stale. -/
def isStale (now : Nat) (job : ScrapeJob) : Bool :=
  match job.lastUpdate with
  | none => false
  | some t => staleTime < now - t

/-- The timed-out job value checkStaleJobs builds before persisting. -/
def finalizeStaleJob (job : ScrapeJob) (now : Nat) : ScrapeJob :=
  { job with status := "timeout", endTime := some now
             errors := job.errors ++ [⟨now, "Job timed out due to inactivity"⟩] }

/-- background.js checkStaleJobs: every stale running job is finalized
as timeout, written to the history, and removed from the registry. The
queue is not touched. -/
def checkStaleJobs (st : ManagerState) (now : Nat) : ManagerState :=
  let stale := st.activeScrapeJobs.filter (fun p => isStale now p.2)
  { st with
    activeScrapeJobs := st.activeScrapeJobs.filter (fun p => !(isStale now p.2))
    scrapingHistory :=
      (stale.map (fun p => finalizeStaleJob p.2 now)).foldl
        updateScrapingHistory st.scrapingHistory }

/-- The inbound events the manager reacts to, each carrying the clock
reading at which it is processed. -/
inductive OrchEvent where
  | submit (tabId : Nat) (params : ScrapingParams) (now : Nat)
  | progress (tabId : Nat) (ev : ProgressEvent) (now : Nat)
  | cancel (tabId : Nat) (now : Nat)
  | staleTick (now : Nat)
deriving Repr

/-- One dispatch step of the manager. -/
def stepEvent (st : ManagerState) : OrchEvent → ManagerState
  | .submit tabId params now => (handleStartScraping st tabId params now).1
  | .progress tabId ev now => handleProgressUpdate st tabId ev now
  | .cancel tabId now => cancelScrapeJob st tabId now
  | .staleTick now => checkStaleJobs st now

/-- Process a list of events in order. -/
def runEvents (st : ManagerState) (es : List OrchEvent) : ManagerState :=
  es.foldl stepEvent st

/-- The manager state right after construction, with the given ceiling. -/
def initState (maxC : Nat) : ManagerState :=
  { activeScrapeJobs := [], scrapingQueue := [], maxConcurrentScrapes := maxC
    scrapingHistory := [], savedResults := [] }

/-! Concrete states used by witnesses and counterexamples. -/

/-- A session with two result records that agree on (id, URL) preceded
by a distinct record whose concatenated key collides with theirs. -/
def collisionSession : Session :=
  { id := "s", startTime := 0, endTime := 0, status := "completed"
    jobs := [⟨"a", "b_c", "t1"⟩, ⟨"a_b", "c", "t2"⟩, ⟨"a_b", "c", "t3"⟩] }

/-- A small session used to populate demo storage states. -/
def demoSession (i ts : Nat) : Session :=
  ⟨"s" ++ toString i, ts, ts, "completed", []⟩

/-- Five saves through an index capped at 3, with timestamps arriving
out of order (10, 50, 20, 30, 40): each step writes the record and then
upserts the index, as saveScrapingSession does. -/
def capDemoState : StorageState :=
  [(1, 10), (2, 50), (3, 20), (4, 30), (5, 40)].foldl
    (fun st p =>
      updateScrapingIndexCap 3
        { st with
          records := st.records ++ [("s" ++ toString p.1, demoSession p.1 p.2)] }
        (demoSession p.1 p.2))
    ⟨[], [], 0, 100⟩

/-- Eight indexed sessions at 85 percent of quota (the scenario of the
quota-eviction test property). -/
def quotaDemoState : StorageState :=
  { records := (List.range 8).map (fun i => ("s" ++ toString i, demoSession i (i * 10)))
    index :=
      (List.range 8).reverse.map
        (fun i => ⟨"s" ++ toString i, i * 10, 0, 0, "completed"⟩)
    bytesInUse := 85
    quota := 100 }

/-- A storage state holding one session dated exactly at the retention
cutoff of a sweep run at 30 days with retentionDays = 30, and one
session inside the window. -/
def retentionDemoState : StorageState :=
  { records := [("edge", demoSession 0 0), ("keep", demoSession 1 (29 * msPerDay))]
    index :=
      [⟨"keep", 29 * msPerDay, 0, 0, "completed"⟩, ⟨"edge", 0, 0, 0, "completed"⟩]
    bytesInUse := 0
    quota := 100 }

/-- A running job that never received a progress event: its lastUpdate
was never initialized. -/
def neverUpdatedJob : ScrapeJob :=
  { id := "job_0_1", tabId := 1, params := ⟨"Engineer", "City A"⟩, startTime := 0
    endTime := none, status := "running", progress := 0, lastUpdate := none
    extractedJobs := [], errors := [] }

/-- A manager owning only the never-updated job. -/
def neverUpdatedState : ManagerState :=
  { activeScrapeJobs := [(1, neverUpdatedJob)], scrapingQueue := []
    maxConcurrentScrapes := 2
    scrapingHistory := [⟨"job_0_1", ⟨"Engineer", "City A"⟩, 0, "running", none, none⟩]
    savedResults := [] }

/-- A running job whose last update was at time 0. -/
def staleRunningJob : ScrapeJob :=
  { neverUpdatedJob with lastUpdate := some 0 }

/-- A manager whose stale running job (id job_0_1) no longer has an
entry in scrapingHistory: the entry was pushed out by the 50-entry cap
while the job ran, leaving only a newer entry for another job. -/
def evictedHistoryState : ManagerState :=
  { activeScrapeJobs := [(1, staleRunningJob)]
    scrapingQueue := []
    maxConcurrentScrapes := 2
    scrapingHistory := [⟨"job_9_9", ⟨"x", "y"⟩, 9, "running", none, none⟩]
    savedResults := [] }

/-- A manager at its ceiling of 1 with a stale running job and one
queued request. -/
def timeoutDrainState : ManagerState :=
  { activeScrapeJobs := [(1, staleRunningJob)]
    scrapingQueue := [⟨2, ⟨"Engineer", "City B"⟩, 5⟩]
    maxConcurrentScrapes := 1
    scrapingHistory := [⟨"job_0_1", ⟨"Engineer", "City A"⟩, 0, "running", none, none⟩]
    savedResults := [] }

/-! Helper lemmas (shared by several claim proofs). -/

/-- Per key, the deduplication recursion keeps the first occurrence of
each unseen key and nothing else. -/
theorem deduplicateJobsGo_filter (jobs : List JobRecord) (seen : List String)
    (k : String) :
    (deduplicateJobsGo jobs seen).filter (fun j => dedupKey j == k)
      = if k ∈ seen then []
        else (jobs.filter (fun j => dedupKey j == k)).take 1 := by
  induction jobs generalizing seen with
  | nil => simp [deduplicateJobsGo]
  | cons j rest ih =>
    by_cases hmem : dedupKey j ∈ seen
    · have hgo : deduplicateJobsGo (j :: rest) seen = deduplicateJobsGo rest seen := by
        simp [deduplicateJobsGo, hmem]
      rw [hgo, ih]
      by_cases hk : dedupKey j = k
      · rw [hk] at hmem
        simp [hmem]
      · by_cases hks : k ∈ seen
        · simp [hks]
        · simp [hks, List.filter_cons, hk]
    · have hgo : deduplicateJobsGo (j :: rest) seen
          = j :: deduplicateJobsGo rest (dedupKey j :: seen) := by
        simp [deduplicateJobsGo, hmem]
      rw [hgo]
      by_cases hk : dedupKey j = k
      · have hfil : (j :: deduplicateJobsGo rest (dedupKey j :: seen)).filter
            (fun x => dedupKey x == k)
            = j :: (deduplicateJobsGo rest (dedupKey j :: seen)).filter
                (fun x => dedupKey x == k) := by
          simp [List.filter_cons, hk]
        rw [hfil, ih]
        have hmem1 : k ∈ dedupKey j :: seen := by
          rw [hk] at *
          exact List.mem_cons_self _ _
        have hks : ¬ k ∈ seen := by
          rw [← hk]
          exact hmem
        simp [hmem1, hks, List.filter_cons, hk]
      · have hfil : (j :: deduplicateJobsGo rest (dedupKey j :: seen)).filter
            (fun x => dedupKey x == k)
            = (deduplicateJobsGo rest (dedupKey j :: seen)).filter
                (fun x => dedupKey x == k) := by
          simp [List.filter_cons, hk]
        rw [hfil, ih]
        have hk2 : ¬ (k = dedupKey j) := fun h => hk h.symm
        by_cases hks : k ∈ seen
        · simp [hks, List.mem_cons, hk2]
        · simp [hks, List.mem_cons, hk2, List.filter_cons, hk]

/-! Claim C4: deduplication of result records. -/

/-- Claim C4 counterexample: the composite key is implemented as the
string jobId concatenated with an underscore and jobUrl, which is not
injective. In collisionSession the records (a_b, c) and (a_b, c) are
identical on (id, URL), yet the persisted session keeps zero of them:
the colliding record (a, b_c) came first and claimed their key, so the
claim that exactly one record with that (id, URL) persists, the first
occurrence, is false. -/
theorem dedup_composite_key_counterexample :
    ((collisionSession.jobs.filter
        (fun j => j.jobId == "a_b" && j.jobUrl == "c")).length = 2) ∧
    (optimizeDataForStorage collisionSession).jobs = [⟨"a", "b_c", "t1"⟩] ∧
    ((optimizeDataForStorage collisionSession).jobs.filter
        (fun j => j.jobId == "a_b" && j.jobUrl == "c")).length = 0 :=
  ⟨rfl, rfl, rfl⟩

/-- Claim C4 (amended): in every saved session the result records are
deduplicated by the concatenated string key jobId_jobUrl: for each key
exactly the first occurrence among the cleaned records survives. This
coincides with deduplication by the pair (id, URL) exactly when no two
distinct pairs collide under the concatenation. -/
theorem saved_session_dedup_by_concatenated_key (s : Session) (k : String) :
    (optimizeDataForStorage s).jobs.filter (fun j => dedupKey j == k)
      = ((s.jobs.map cleanJobData).filter (fun j => dedupKey j == k)).take 1 := by
  simp [optimizeDataForStorage, deduplicateJobs, deduplicateJobsGo_filter]

/-! Claim C3: the index entry cap. -/

/-- Claim C3 counterexample: with cap 3, saving five sessions whose
timestamps arrive in the order 10, 50, 20, 30, 40 leaves the index with
timestamps 40, 30, 20. The entry with timestamp 50 is the newest of all
five, yet it was trimmed and its session record s2 deleted, so the trim
does not retain the cap-many newest entries by timestamp. -/
theorem index_cap_counterexample :
    ([10, 50, 20, 30, 40].all (fun ts => decide (ts ≤ 50))) ∧
    (capDemoState.index.all (fun e => e.timestamp != 50)) ∧
    (capDemoState.records.all (fun r => r.1 != "s2")) ∧
    (capDemoState.index.map (fun e => e.timestamp) = [40, 30, 20]) :=
  ⟨rfl, rfl, rfl, rfl⟩

/-- Claim C3 (amended): after every index upsert the index holds at most
cap entries; the retained entries are precisely the first cap entries of
the upserted newest-first list (the most recently inserted or updated
ones, which agree with the newest by timestamp only when saves arrive in
timestamp order), and the entries beyond the cap are trimmed with their
session records deleted. The source fixes the cap at 1000. -/
theorem index_cap_trim (cap : Nat) (st : StorageState) (s : Session) :
    (updateScrapingIndexCap cap st s).index
        = (upsertEntry st.index (mkIndexEntry s)).take cap ∧
    (updateScrapingIndexCap cap st s).records
        = removeRecords st.records
            (((upsertEntry st.index (mkIndexEntry s)).drop cap).map (fun e => e.id)) ∧
    (updateScrapingIndexCap cap st s).index.length ≤ cap ∧
    updateScrapingIndex st s = updateScrapingIndexCap 1000 st s := by
  by_cases h : cap < (upsertEntry st.index (mkIndexEntry s)).length
  · refine ⟨?_, ?_, ?_, rfl⟩
    · simp [updateScrapingIndexCap, h]
    · simp [updateScrapingIndexCap, h]
    · simp [updateScrapingIndexCap, h]
  · have hle : (upsertEntry st.index (mkIndexEntry s)).length ≤ cap :=
      Nat.le_of_not_lt h
    refine ⟨?_, ?_, ?_, rfl⟩
    · simp [updateScrapingIndexCap, h, List.take_of_length_le hle]
    · simp [updateScrapingIndexCap, h, List.drop_eq_nil_of_le hle, removeRecords]
    · simp [updateScrapingIndexCap, h]
      exact hle

/-! Claim C8: the retention sweep. -/

/-- Claim C8 counterexample: the sweep keeps only entries with timestamp
strictly greater than the cutoff. In retentionDemoState the edge session
has timestamp exactly now minus retentionDays times a day, so it is not
older than the cutoff, yet the sweep deletes its index entry and its
record, contradicting the claim that every session within the retention
window is untouched. -/
theorem retention_boundary_counterexample :
    (retentionDemoState.index.map (fun e => e.id) = ["keep", "edge"]) ∧
    (¬ (((0 : Nat) : Int)
        < ((30 * msPerDay : Nat) : Int) - (30 : Int) * (msPerDay : Int))) ∧
    ((cleanupOldData retentionDemoState (30 * msPerDay) 30).index.map
        (fun e => e.id) = ["keep"]) ∧
    ((cleanupOldData retentionDemoState (30 * msPerDay) 30).records.map
        (fun r => r.1) = ["keep"]) :=
  ⟨rfl, by decide, rfl, rfl⟩

/-- Claim C8 (amended): a retention sweep deletes exactly the index
entry and session record pairs whose timestamp is less than or equal to
now minus retentionDays in milliseconds (the source keeps timestamps
strictly greater than the cutoff), and every session with a strictly
newer timestamp is untouched, its record content included. -/
theorem retention_sweep_amended (st : StorageState) (now retentionDays : Nat)
    (hnodup : (st.index.map (fun e => e.id)).Nodup) :
    ((cleanupOldData st now retentionDays).index
        = st.index.filter (fun e =>
            decide (((now : Int) - (retentionDays : Int) * (msPerDay : Int))
              < (e.timestamp : Int)))) ∧
    (∀ e ∈ st.index,
        (e.timestamp : Int) ≤ (now : Int) - (retentionDays : Int) * (msPerDay : Int) →
        ∀ r ∈ (cleanupOldData st now retentionDays).records, r.1 ≠ e.id) ∧
    (∀ e ∈ st.index,
        ((now : Int) - (retentionDays : Int) * (msPerDay : Int)) < (e.timestamp : Int) →
        ∀ r ∈ st.records, r.1 = e.id →
          r ∈ (cleanupOldData st now retentionDays).records) := by
  set cutoff : Int := (now : Int) - (retentionDays : Int) * (msPerDay : Int) with hcut
  by_cases hpos :
      0 < ((st.index.filter (fun e => !(decide (cutoff < (e.timestamp : Int))))).map
        (fun e => e.id)).length
  · have hstep : cleanupOldData st now retentionDays =
        { st with
          records := removeRecords st.records
            ((st.index.filter (fun e => !(decide (cutoff < (e.timestamp : Int))))).map
              (fun e => e.id))
          index := st.index.filter (fun e => decide (cutoff < (e.timestamp : Int))) } := by
      simp only [cleanupOldData, ← hcut]
      rw [if_pos hpos]
    refine ⟨by rw [hstep], ?_, ?_⟩
    · intro e he hle r hr
      rw [hstep] at hr
      simp only [removeRecords, List.mem_filter] at hr
      intro hid
      have hmem : e.id ∈
          (st.index.filter (fun x => !(decide (cutoff < (x.timestamp : Int))))).map
            (fun x => x.id) := by
        refine List.mem_map.mpr ⟨e, ?_, rfl⟩
        refine List.mem_filter.mpr ⟨he, ?_⟩
        simpa using Int.not_lt.mpr hle
      have hnm := hr.2
      rw [hid] at hnm
      generalize hids :
          (st.index.filter (fun x => !(decide (cutoff < (x.timestamp : Int))))).map
            (fun x => x.id) = ids at hnm hmem
      simp at hnm
      exact hnm hmem
    · intro e he hgt r hr hid
      rw [hstep]
      simp only [removeRecords, List.mem_filter]
      refine ⟨hr, ?_⟩
      suffices hns : r.1 ∉
          (st.index.filter (fun x => !(decide (cutoff < (x.timestamp : Int))))).map
            (fun x => x.id) by
        generalize hids :
            (st.index.filter (fun x => !(decide (cutoff < (x.timestamp : Int))))).map
              (fun x => x.id) = ids at hns ⊢
        simp [hns]
      intro hxmem
      rcases List.mem_map.mp hxmem with ⟨e2, he2, hide2⟩
      have he2idx : e2 ∈ st.index := (List.mem_filter.mp he2).1
      have he2stale : ¬ (cutoff < (e2.timestamp : Int)) := by
        have := (List.mem_filter.mp he2).2
        simpa using this
      have hsameid : e2.id = e.id := by rw [hide2, hid]
      have heq : e2 = e := List.inj_on_of_nodup_map hnodup he2idx he hsameid
      rw [heq] at he2stale
      exact he2stale hgt
  · have hall : ∀ e ∈ st.index, (decide (cutoff < (e.timestamp : Int))) = true := by
      intro e he
      by_contra hne
      have : e ∈ st.index.filter (fun x => !(decide (cutoff < (x.timestamp : Int)))) := by
        refine List.mem_filter.mpr ⟨he, ?_⟩
        simp only [Bool.not_eq_true] at hne ⊢
        simp [hne]
      have : 0 < ((st.index.filter
          (fun x => !(decide (cutoff < (x.timestamp : Int))))).map
            (fun x => x.id)).length := by
        simp only [List.length_map]
        exact List.length_pos.mpr (List.ne_nil_of_mem this)
      exact hpos this
    have hstep : cleanupOldData st now retentionDays = st := by
      simp only [cleanupOldData, ← hcut]
      rw [if_neg hpos]
    refine ⟨?_, ?_, ?_⟩
    · rw [hstep, Eq.comm]
      exact List.filter_eq_self.mpr hall
    · intro e he hle
      have := hall e he
      simp only [decide_eq_true_eq] at this
      exact absurd this (Int.not_lt.mpr hle)
    · intro e he hgt r hr hid
      rw [hstep]
      exact hr

/-- Claim C8 witness: the amended sweep statement at the concrete
retentionDemoState, run at 30 days with a 30-day retention window: the
surviving index is the strict filter, and the in-window session keeps
its full record. -/
theorem retention_sweep_amended_witness :
    ((retentionDemoState.index.map (fun e => e.id)).Nodup) ∧
    ((cleanupOldData retentionDemoState (30 * msPerDay) 30).index
        = retentionDemoState.index.filter (fun e =>
            decide ((((30 * msPerDay : Nat) : Int)
                - ((30 : Nat) : Int) * (msPerDay : Int))
              < (e.timestamp : Int)))) ∧
    (("keep", demoSession 1 (29 * msPerDay))
        ∈ (cleanupOldData retentionDemoState (30 * msPerDay) 30).records) := by
  have h := retention_sweep_amended retentionDemoState (30 * msPerDay) 30 (by decide)
  refine ⟨by decide, h.1, ?_⟩
  exact h.2.2 ⟨"keep", 29 * msPerDay, 0, 0, "completed"⟩ (by decide) (by decide)
    ("keep", demoSession 1 (29 * msPerDay)) (by decide) rfl

/-! Claim C9: unsupported export formats. -/

/-- Claim C9 counterexample: for the unsupported formats xlsx and docx
the background EXPORT_DATA message path answers success true and
produces no download: the thrown Unsupported export format error is
swallowed by the catch block of background.js exportData, so the export
silently succeeds with no output instead of failing explicitly. -/
theorem export_unsupported_counterexample :
    handleExportMessage "xlsx" [demoSession 0 0] 7 = (⟨true⟩, none) ∧
    handleExportMessage "docx" [demoSession 0 0] 7 = (⟨true⟩, none) :=
  ⟨rfl, rfl⟩

/-- Claim C9 (amended): for every format other than json and csv the
StorageManager export fails explicitly with an error surfaced to its
caller and never yields a payload, while the background message path
swallows the error: the caller receives success true and no download is
produced. -/
theorem export_unsupported_amended (format : String) (sessions : List Session)
    (now : Nat) (h1 : format ≠ "json") (h2 : format ≠ "csv") :
    (∃ msg, exportDataStorage format sessions now = .error msg) ∧
    (∀ p, exportDataStorage format sessions now ≠ .ok p) ∧
    handleExportMessage format sessions now = (⟨true⟩, none) := by
  by_cases hx : format = "xlsx"
  · refine ⟨⟨"XLSX export not implemented yet", ?_⟩, ?_, ?_⟩ <;>
      simp [exportDataStorage, handleExportMessage, exportDataBackground, h1, h2, hx]
  · refine ⟨⟨"Unsupported format: " ++ format, ?_⟩, ?_, ?_⟩ <;>
      simp [exportDataStorage, handleExportMessage, exportDataBackground, h1, h2, hx]

/-- Claim C9 witness: the amended statement at the concrete format xlsx. -/
theorem export_unsupported_amended_witness :
    (∃ msg, exportDataStorage "xlsx" [] 3 = .error msg) ∧
    (∀ p, exportDataStorage "xlsx" [] 3 ≠ .ok p) ∧
    handleExportMessage "xlsx" [] 3 = (⟨true⟩, none) :=
  export_unsupported_amended "xlsx" [] 3 (by decide) (by decide)

/-! Claim C7: forced termination of unresponsive jobs. -/

/-- Claim C7 refutation on the code: a running job that never received a
progress event has no lastUpdate, the staleness comparison is therefore
false at every clock reading, and no watchdog tick ever removes it: the
job stays running forever, so the system does block indefinitely on an
Agent that never reports. -/
theorem watchdog_never_fires_without_updates :
    ∀ now : Nat,
      checkStaleJobs neverUpdatedState now = neverUpdatedState ∧
      mapGet (checkStaleJobs neverUpdatedState now).activeScrapeJobs 1
        = some neverUpdatedJob ∧
      neverUpdatedJob.status = "running" ∧
      neverUpdatedJob.lastUpdate = none := by
  intro now
  have h : checkStaleJobs neverUpdatedState now = neverUpdatedState := by
    simp [checkStaleJobs, neverUpdatedState, isStale, neverUpdatedJob]
  refine ⟨h, ?_, rfl, rfl⟩
  rw [h]
  rfl

/-! Claim C5: queue draining when a slot is freed. -/

/-- Claim C5 counterexample: in timeoutDrainState the single slot is
held by a stale job and one request is queued. The watchdog tick frees
the slot (the registry becomes empty) but the queued request is not
admitted: the queue is left untouched, contradicting the claim that a
slot freed by watchdog timeout admits the oldest queued request next. -/
theorem timeout_does_not_drain_queue_counterexample :
    (checkStaleJobs timeoutDrainState (31 * 60 * 1000)).activeScrapeJobs = [] ∧
    (checkStaleJobs timeoutDrainState (31 * 60 * 1000)).scrapingQueue
        = [⟨2, ⟨"Engineer", "City B"⟩, 5⟩] ∧
    timeoutDrainState.scrapingQueue = [⟨2, ⟨"Engineer", "City B"⟩, 5⟩] ∧
    timeoutDrainState.maxConcurrentScrapes = 1 :=
  ⟨rfl, rfl, rfl, rfl⟩

/-! Registry map lemmas. -/

/-- Setting a key makes it retrievable. -/
theorem mapGet_mapSet_self (m : List (Nat × ScrapeJob)) (k : Nat) (v : ScrapeJob) :
    mapGet (mapSet m k v) k = some v := by
  induction m with
  | nil => simp [mapSet, mapGet]
  | cons p rest ih =>
    rcases p with ⟨k1, v1⟩
    by_cases h : k1 = k
    · simp [mapSet, mapGet, h]
    · simp [mapSet, mapGet, h, ih]

/-- Map.set grows the registry only when the key is fresh. -/
theorem mapSet_length (m : List (Nat × ScrapeJob)) (k : Nat) (v : ScrapeJob) :
    (mapSet m k v).length = if mapHas m k then m.length else m.length + 1 := by
  induction m with
  | nil => simp [mapSet, mapHas, mapGet]
  | cons p rest ih =>
    rcases p with ⟨k1, v1⟩
    by_cases h : k1 = k
    · simp [mapSet, mapHas, mapGet, h]
    · have hhas : mapHas ((k1, v1) :: rest) k = mapHas rest k := by
        simp [mapHas, mapGet, h]
      simp only [mapSet, if_neg h, List.length_cons, hhas, ih]
      by_cases hr : mapHas rest k
      · simp [hr]
      · simp [hr]

/-- A retrievable key is present. -/
theorem mapHas_of_mapGet_some {m : List (Nat × ScrapeJob)} {k : Nat}
    {v : ScrapeJob} (h : mapGet m k = some v) : mapHas m k = true := by
  simp [mapHas, h]

/-- A retrieved binding is a member of the registry list. -/
theorem mapGet_mem {m : List (Nat × ScrapeJob)} {k : Nat} {v : ScrapeJob}
    (h : mapGet m k = some v) : (k, v) ∈ m := by
  induction m with
  | nil => simp [mapGet] at h
  | cons p rest ih =>
    rcases p with ⟨k1, v1⟩
    by_cases hk : k1 = k
    · simp [mapGet, hk] at h
      rw [hk, h]
      exact List.mem_cons_self _ _
    · simp [mapGet, hk] at h
      exact List.mem_cons_of_mem _ (ih h)

/-- With distinct keys, two bindings of the same key coincide. -/
theorem nodupKeys_unique {m : List (Nat × ScrapeJob)} {k : Nat} {a b : ScrapeJob}
    (hnodup : (m.map (fun p => p.1)).Nodup)
    (ha : (k, a) ∈ m) (hb : (k, b) ∈ m) : a = b := by
  have := List.inj_on_of_nodup_map hnodup ha hb rfl
  exact congrArg Prod.snd this

/-- A kept binding survives a registry filter and is still the first
binding of its key. -/
theorem mapGet_filter_keep {m : List (Nat × ScrapeJob)} {k : Nat} {v : ScrapeJob}
    (p : Nat × ScrapeJob → Bool)
    (h : mapGet m k = some v) (hp : p (k, v) = true) :
    mapGet (m.filter p) k = some v := by
  induction m with
  | nil => simp [mapGet] at h
  | cons q rest ih =>
    rcases q with ⟨k1, v1⟩
    by_cases hk : k1 = k
    · simp [mapGet, hk] at h
      rw [hk, h] at *
      simp [List.filter_cons, hp, mapGet]
    · simp [mapGet, hk] at h
      by_cases hq : p (k1, v1) = true
      · simp [List.filter_cons, hq, mapGet, hk]
        exact ih h
      · simp only [List.filter_cons]
        rw [if_neg (by simp [hq])]
        exact ih h

/-- With distinct keys, a binding whose filter test fails disappears
from the filtered registry entirely. -/
theorem mapHas_filter_drop {m : List (Nat × ScrapeJob)} {k : Nat} {v : ScrapeJob}
    (p : Nat × ScrapeJob → Bool)
    (hnodup : (m.map (fun q => q.1)).Nodup)
    (hmem : (k, v) ∈ m) (hp : p (k, v) = false) :
    mapHas (m.filter p) k = false := by
  rw [mapHas]
  cases hget : mapGet (m.filter p) k with
  | none => rfl
  | some w =>
    exfalso
    have hwmem : (k, w) ∈ m.filter p := mapGet_mem hget
    have hwm : (k, w) ∈ m := (List.mem_filter.mp hwmem).1
    have hwp : p (k, w) = true := (List.mem_filter.mp hwmem).2
    have : w = v := nodupKeys_unique hnodup hwm hmem
    rw [this] at hwp
    rw [hwp] at hp
    exact Bool.noConfusion hp

/-! State-preservation lemmas for the manager operations. -/

/-- startScrapeJob leaves queue and ceiling unchanged and grows the
registry by at most one binding. -/
theorem startScrapeJob_frame (st : ManagerState) (tabId : Nat)
    (params : ScrapingParams) (now : Nat) :
    (startScrapeJob st tabId params now).scrapingQueue = st.scrapingQueue ∧
    (startScrapeJob st tabId params now).maxConcurrentScrapes
        = st.maxConcurrentScrapes ∧
    (startScrapeJob st tabId params now).activeScrapeJobs.length
        ≤ st.activeScrapeJobs.length + 1 := by
  refine ⟨rfl, rfl, ?_⟩
  simp only [startScrapeJob]
  rw [mapSet_length]
  split
  · exact Nat.le_succ _
  · exact Nat.le_refl _

/-- processScrapingQueue leaves the ceiling unchanged. -/
theorem processScrapingQueue_max (st : ManagerState) (now : Nat) :
    (processScrapingQueue st now).maxConcurrentScrapes
      = st.maxConcurrentScrapes := by
  unfold processScrapingQueue
  split
  · rfl
  · split
    · exact (startScrapeJob_frame _ _ _ _).2.1
    · rfl

/-- processScrapingQueue preserves the concurrency bound. -/
theorem processScrapingQueue_inv (st : ManagerState) (now : Nat)
    (h : st.activeScrapeJobs.length ≤ st.maxConcurrentScrapes) :
    (processScrapingQueue st now).activeScrapeJobs.length
      ≤ st.maxConcurrentScrapes := by
  unfold processScrapingQueue
  split
  · exact h
  · rename_i q rest hq
    split
    · rename_i hlt
      simp only [startScrapeJob]
      rw [mapSet_length]
      split
      · exact Nat.le_of_lt hlt
      · exact hlt
    · exact h

/-- handleStartScraping preserves the ceiling and the concurrency bound. -/
theorem handleStartScraping_preserve (st : ManagerState) (tabId : Nat)
    (p : ScrapingParams) (now : Nat)
    (h : st.activeScrapeJobs.length ≤ st.maxConcurrentScrapes) :
    ((handleStartScraping st tabId p now).1).maxConcurrentScrapes
        = st.maxConcurrentScrapes ∧
    ((handleStartScraping st tabId p now).1).activeScrapeJobs.length
        ≤ st.maxConcurrentScrapes := by
  unfold handleStartScraping
  split
  · exact ⟨rfl, h⟩
  · split
    · exact ⟨rfl, h⟩
    · rename_i hhas hlen
      refine ⟨(startScrapeJob_frame _ _ _ _).2.1, ?_⟩
      have hlt : st.activeScrapeJobs.length < st.maxConcurrentScrapes :=
        Nat.lt_of_not_le hlen
      simp only [startScrapeJob]
      rw [mapSet_length]
      split
      · exact Nat.le_of_lt hlt
      · exact hlt

/-- handleProgressUpdate preserves the ceiling and the concurrency bound. -/
theorem handleProgressUpdate_preserve (st : ManagerState) (tabId : Nat)
    (ev : ProgressEvent) (now : Nat)
    (h : st.activeScrapeJobs.length ≤ st.maxConcurrentScrapes) :
    (handleProgressUpdate st tabId ev now).maxConcurrentScrapes
        = st.maxConcurrentScrapes ∧
    (handleProgressUpdate st tabId ev now).activeScrapeJobs.length
        ≤ st.maxConcurrentScrapes := by
  unfold handleProgressUpdate
  split
  · exact ⟨rfl, h⟩
  · rename_i job hget
    have hhas : mapHas st.activeScrapeJobs tabId = true := mapHas_of_mapGet_some hget
    split
    · constructor
      · exact processScrapingQueue_max _ _
      · refine processScrapingQueue_inv _ _ ?_
        exact Nat.le_trans (List.length_filter_le _ _) h
    · constructor
      · rfl
      · rw [mapSet_length]
        simp [hhas, h]
    · constructor
      · rfl
      · rw [mapSet_length]
        simp [hhas, h]

/-- cancelScrapeJob preserves the ceiling and the concurrency bound. -/
theorem cancelScrapeJob_preserve (st : ManagerState) (tabId : Nat) (now : Nat)
    (h : st.activeScrapeJobs.length ≤ st.maxConcurrentScrapes) :
    (cancelScrapeJob st tabId now).maxConcurrentScrapes
        = st.maxConcurrentScrapes ∧
    (cancelScrapeJob st tabId now).activeScrapeJobs.length
        ≤ st.maxConcurrentScrapes := by
  unfold cancelScrapeJob
  split
  · exact ⟨rfl, h⟩
  · constructor
    · exact processScrapingQueue_max _ _
    · refine processScrapingQueue_inv _ _ ?_
      exact Nat.le_trans (List.length_filter_le _ _) h

/-- checkStaleJobs preserves the ceiling and the concurrency bound. -/
theorem checkStaleJobs_preserve (st : ManagerState) (now : Nat)
    (h : st.activeScrapeJobs.length ≤ st.maxConcurrentScrapes) :
    (checkStaleJobs st now).maxConcurrentScrapes = st.maxConcurrentScrapes ∧
    (checkStaleJobs st now).activeScrapeJobs.length
        ≤ st.maxConcurrentScrapes := by
  exact ⟨rfl, Nat.le_trans (List.length_filter_le _ _) h⟩

/-- Every event dispatch preserves the ceiling and the concurrency bound. -/
theorem stepEvent_preserve (st : ManagerState) (e : OrchEvent)
    (h : st.activeScrapeJobs.length ≤ st.maxConcurrentScrapes) :
    (stepEvent st e).maxConcurrentScrapes = st.maxConcurrentScrapes ∧
    (stepEvent st e).activeScrapeJobs.length ≤ st.maxConcurrentScrapes := by
  cases e with
  | submit tabId params now => exact handleStartScraping_preserve st tabId params now h
  | progress tabId ev now => exact handleProgressUpdate_preserve st tabId ev now h
  | cancel tabId now => exact cancelScrapeJob_preserve st tabId now h
  | staleTick now => exact checkStaleJobs_preserve st now h

/-- Any event sequence preserves the ceiling and the concurrency bound. -/
theorem runEvents_bound (es : List OrchEvent) (st : ManagerState)
    (h : st.activeScrapeJobs.length ≤ st.maxConcurrentScrapes) :
    (runEvents st es).maxConcurrentScrapes = st.maxConcurrentScrapes ∧
    (runEvents st es).activeScrapeJobs.length ≤ st.maxConcurrentScrapes := by
  induction es generalizing st with
  | nil => exact ⟨rfl, h⟩
  | cons e rest ih =>
    obtain ⟨hmax, hlen⟩ := stepEvent_preserve st e h
    have hlen2 : (stepEvent st e).activeScrapeJobs.length
        ≤ (stepEvent st e).maxConcurrentScrapes := by
      rw [hmax]
      exact hlen
    obtain ⟨hmax2, hlen3⟩ := ih (stepEvent st e) hlen2
    have hrun : runEvents st (e :: rest) = runEvents (stepEvent st e) rest := rfl
    rw [hrun, hmax] at *
    exact ⟨hmax2, hlen3⟩

/-! Claim C1: admission behaviour and the global concurrency bound. -/

/-- Claim C1: a submission from a context with a running job is
rejected and leaves the state unchanged; below the ceiling the job goes
straight to running; at the ceiling the request is appended to the
queue (submission order) and the caller is told its position, the queue
length after the push; and over any event sequence from a fresh manager
with ceiling C, at most C jobs are ever simultaneously running. -/
theorem submission_admission_and_bound :
    (∀ (st : ManagerState) (tabId : Nat) (p : ScrapingParams) (now : Nat),
        mapHas st.activeScrapeJobs tabId = true →
        handleStartScraping st tabId p now
          = (st, SubmitResponse.rejected "Scraping already active in this tab")) ∧
    (∀ (st : ManagerState) (tabId : Nat) (p : ScrapingParams) (now : Nat),
        mapHas st.activeScrapeJobs tabId = false →
        st.activeScrapeJobs.length < st.maxConcurrentScrapes →
        (handleStartScraping st tabId p now).2 = SubmitResponse.accepted ∧
        ∃ job, mapGet (handleStartScraping st tabId p now).1.activeScrapeJobs tabId
            = some job ∧ job.status = "running") ∧
    (∀ (st : ManagerState) (tabId : Nat) (p : ScrapingParams) (now : Nat),
        mapHas st.activeScrapeJobs tabId = false →
        st.maxConcurrentScrapes ≤ st.activeScrapeJobs.length →
        (handleStartScraping st tabId p now).1.scrapingQueue
            = st.scrapingQueue ++ [⟨tabId, p, now⟩] ∧
        (handleStartScraping st tabId p now).2
            = SubmitResponse.queued (st.scrapingQueue.length + 1) ∧
        (handleStartScraping st tabId p now).1.activeScrapeJobs
            = st.activeScrapeJobs) ∧
    (∀ (ceiling : Nat) (es : List OrchEvent),
        (runEvents (initState ceiling) es).activeScrapeJobs.length ≤ ceiling) := by
  refine ⟨?_, ?_, ?_, ?_⟩
  · intro st tabId p now h1
    simp [handleStartScraping, h1]
  · intro st tabId p now h1 h2
    have hnle : ¬ (st.maxConcurrentScrapes ≤ st.activeScrapeJobs.length) :=
      Nat.not_le.mpr h2
    constructor
    · simp [handleStartScraping, h1, hnle]
    · refine ⟨{ id := "job_" ++ toString now ++ "_" ++ toString tabId
                tabId := tabId, params := p, startTime := now, endTime := none
                status := "running", progress := 0, lastUpdate := none
                extractedJobs := [], errors := [] }, ?_, rfl⟩
      have hred : (handleStartScraping st tabId p now).1
          = startScrapeJob st tabId p now := by
        simp [handleStartScraping, h1, hnle]
      rw [hred]
      exact mapGet_mapSet_self _ _ _
  · intro st tabId p now h1 h2
    refine ⟨?_, ?_, ?_⟩ <;> simp [handleStartScraping, h1, h2]
  · intro ceiling es
    have h0 : (initState ceiling).activeScrapeJobs.length
        ≤ (initState ceiling).maxConcurrentScrapes := by
      simp [initState]
    have := runEvents_bound es (initState ceiling) h0
    exact this.2

/-- Claim C1 witness: the three admission behaviours at concrete states
and the bound over a concrete event sequence. -/
theorem submission_admission_and_bound_witness :
    (handleStartScraping timeoutDrainState 1 ⟨"a", "b"⟩ 9).2
        = SubmitResponse.rejected "Scraping already active in this tab" ∧
    (handleStartScraping timeoutDrainState 3 ⟨"a", "b"⟩ 9).2
        = SubmitResponse.queued 2 ∧
    (handleStartScraping (initState 2) 3 ⟨"a", "b"⟩ 9).2
        = SubmitResponse.accepted ∧
    (runEvents (initState 2)
        [.submit 1 ⟨"a", "b"⟩ 1, .submit 2 ⟨"a", "b"⟩ 2, .submit 3 ⟨"a", "b"⟩ 3,
         .submit 4 ⟨"a", "b"⟩ 4, .progress 1 (.complete [] 100) 5,
         .cancel 2 6, .staleTick 7]).activeScrapeJobs.length ≤ 2 := by
  refine ⟨?_, ?_, ?_, ?_⟩
  · have := submission_admission_and_bound.1 timeoutDrainState 1 ⟨"a", "b"⟩ 9
      (by decide)
    rw [this]
  · exact (submission_admission_and_bound.2.2.1 timeoutDrainState 3 ⟨"a", "b"⟩ 9
      (by decide) (by decide)).2.1
  · exact (submission_admission_and_bound.2.1 (initState 2) 3 ⟨"a", "b"⟩ 9
      (by decide) (by decide)).1
  · exact submission_admission_and_bound.2.2.2 2 _

/-! Claim C10: the one-job-per-context check ignores the queue. -/

/-- Claim C10: admission consults only the running-job registry, so a
context whose request is queued but not running is not rejected on a
second submission; at the ceiling the second request is appended as a
further queue entry, giving that context two simultaneous queue
positions. -/
theorem queued_context_resubmit (st : ManagerState) (tabId : Nat)
    (p : ScrapingParams) (now : Nat)
    (hnotrun : mapHas st.activeScrapeJobs tabId = false)
    (hfull : st.maxConcurrentScrapes ≤ st.activeScrapeJobs.length)
    (hqueued : (st.scrapingQueue.filter (fun e => e.tabId == tabId)).length = 1) :
    (∀ msg, (handleStartScraping st tabId p now).2 ≠ SubmitResponse.rejected msg) ∧
    (handleStartScraping st tabId p now).2
        = SubmitResponse.queued (st.scrapingQueue.length + 1) ∧
    (handleStartScraping st tabId p now).1.scrapingQueue
        = st.scrapingQueue ++ [⟨tabId, p, now⟩] ∧
    ((handleStartScraping st tabId p now).1.scrapingQueue.filter
        (fun e => e.tabId == tabId)).length = 2 := by
  refine ⟨?_, ?_, ?_, ?_⟩
  · intro msg
    simp [handleStartScraping, hnotrun, hfull]
  · simp [handleStartScraping, hnotrun, hfull]
  · simp [handleStartScraping, hnotrun, hfull]
  · simp [handleStartScraping, hnotrun, hfull, List.filter_append, hqueued]

/-- Claim C10 witness: in timeoutDrainState tab 2 is queued and not
running while the single slot is taken; a second submission from tab 2
is queued again, giving tab 2 two queue positions. -/
theorem queued_context_resubmit_witness :
    (handleStartScraping timeoutDrainState 2 ⟨"Engineer", "City B"⟩ 9).2
        = SubmitResponse.queued 2 ∧
    ((handleStartScraping timeoutDrainState 2 ⟨"Engineer", "City B"⟩ 9).1.scrapingQueue.filter
        (fun e => e.tabId == 2)).length = 2 := by
  have h := queued_context_resubmit timeoutDrainState 2 ⟨"Engineer", "City B"⟩ 9
    (by decide) (by decide) (by decide)
  exact ⟨h.2.1, h.2.2.2⟩

/-- Claim C5 (amended): a slot freed by completion or by cancellation
drains the admission queue, and the draining pops exactly the head, the
oldest request, which becomes a running job; a slot freed by watchdog
timeout does not drain the queue, which is left untouched until the
next completion or cancellation. -/
theorem slot_free_drain_amended :
    (∀ (st : ManagerState) (now : Nat) (q : QueueEntry) (rest : List QueueEntry),
        st.scrapingQueue = q :: rest →
        st.activeScrapeJobs.length < st.maxConcurrentScrapes →
        (processScrapingQueue st now).scrapingQueue = rest ∧
        ∃ job, mapGet (processScrapingQueue st now).activeScrapeJobs q.tabId
            = some job ∧ job.status = "running") ∧
    (∀ (st : ManagerState) (tabId now : Nat) (job : ScrapeJob),
        mapGet st.activeScrapeJobs tabId = some job →
        cancelScrapeJob st tabId now
          = processScrapingQueue
              { st with
                scrapingHistory := updateScrapingHistory st.scrapingHistory
                  { job with status := "cancelled", endTime := some now }
                activeScrapeJobs := mapDelete st.activeScrapeJobs tabId } now) ∧
    (∀ (st : ManagerState) (tabId now : Nat) (job : ScrapeJob)
        (records : List JobRecord) (pr : Nat),
        mapGet st.activeScrapeJobs tabId = some job →
        handleProgressUpdate st tabId (.complete records pr) now
          = processScrapingQueue
              { st with
                savedResults := st.savedResults ++
                  [sessionOfJob
                    { job with progress := pr, lastUpdate := some now
                               status := "completed", endTime := some now
                               extractedJobs := records }]
                activeScrapeJobs := mapDelete st.activeScrapeJobs tabId } now) ∧
    (∀ (st : ManagerState) (now : Nat),
        (checkStaleJobs st now).scrapingQueue = st.scrapingQueue) := by
  refine ⟨?_, ?_, ?_, ?_⟩
  · intro st now q rest hq hlt
    have hred : processScrapingQueue st now
        = startScrapeJob { st with scrapingQueue := rest } q.tabId
            q.scrapingParams now := by
      unfold processScrapingQueue
      rw [hq]
      simp [hlt]
    rw [hred]
    refine ⟨rfl, ?_⟩
    refine ⟨{ id := "job_" ++ toString now ++ "_" ++ toString q.tabId
              tabId := q.tabId, params := q.scrapingParams, startTime := now
              endTime := none, status := "running", progress := 0
              lastUpdate := none, extractedJobs := [], errors := [] }, ?_, rfl⟩
    exact mapGet_mapSet_self _ _ _
  · intro st tabId now job hget
    simp [cancelScrapeJob, hget]
  · intro st tabId now job records pr hget
    simp [handleProgressUpdate, hget, progressOf]
  · intro st now
    rfl

/-- Claim C5 witness: with one slot free and requests from tabs 2 and 3
queued in that order, a drain admits the request of tab 2 and leaves
tab 3 queued; and a watchdog tick on a concrete state leaves the queue
unchanged. -/
theorem slot_free_drain_amended_witness :
    (processScrapingQueue
        { activeScrapeJobs := [], scrapingQueue :=
            [⟨2, ⟨"a", "b"⟩, 1⟩, ⟨3, ⟨"c", "d"⟩, 2⟩]
          maxConcurrentScrapes := 2, scrapingHistory := []
          savedResults := [] } 9).scrapingQueue = [⟨3, ⟨"c", "d"⟩, 2⟩] ∧
    (∃ job, mapGet (processScrapingQueue
        { activeScrapeJobs := [], scrapingQueue :=
            [⟨2, ⟨"a", "b"⟩, 1⟩, ⟨3, ⟨"c", "d"⟩, 2⟩]
          maxConcurrentScrapes := 2, scrapingHistory := []
          savedResults := [] } 9).activeScrapeJobs 2
        = some job ∧ job.status = "running") ∧
    (checkStaleJobs timeoutDrainState (31 * 60 * 1000)).scrapingQueue
        = timeoutDrainState.scrapingQueue := by
  refine ⟨?_, ?_, ?_⟩
  · exact (slot_free_drain_amended.1 _ 9 ⟨2, ⟨"a", "b"⟩, 1⟩ [⟨3, ⟨"c", "d"⟩, 2⟩]
      rfl (by decide)).1
  · exact (slot_free_drain_amended.1 _ 9 ⟨2, ⟨"a", "b"⟩, 1⟩ [⟨3, ⟨"c", "d"⟩, 2⟩]
      rfl (by decide)).2
  · exact slot_free_drain_amended.2.2.2 timeoutDrainState (31 * 60 * 1000)

/-! Claim C6: the stale-job watchdog. -/

/-- Updating the history rewrites the first entry with the matching id
in place. -/
theorem updateScrapingHistory_find (h : List HistoryEntry) (job : ScrapeJob)
    (e0 : HistoryEntry)
    (hf : h.find? (fun e => e.id == job.id) = some e0) :
    (updateScrapingHistory h job).find? (fun e => e.id == job.id)
      = some { e0 with status := job.status, endTime := job.endTime
                       extractedCount := some job.extractedJobs.length } := by
  induction h with
  | nil => simp [List.find?] at hf
  | cons e rest ih =>
    by_cases hid : e.id = job.id
    · rw [List.find?_cons_of_pos _ (by simp [hid])] at hf
      have he0 : e = e0 := Option.some.inj hf
      rw [updateScrapingHistory, if_pos hid]
      rw [List.find?_cons_of_pos _ (by simp [hid])]
      rw [he0]
    · rw [List.find?_cons_of_neg _ (by simp [hid])] at hf
      rw [updateScrapingHistory, if_neg hid]
      rw [List.find?_cons_of_neg _ (by simp [hid])]
      exact ih hf

/-- Updating the history for one job does not disturb the first entry
carrying a different id. -/
theorem updateScrapingHistory_find_ne (h : List HistoryEntry) (job : ScrapeJob)
    (tid : String) (hne : job.id ≠ tid) :
    (updateScrapingHistory h job).find? (fun e => e.id == tid)
      = h.find? (fun e => e.id == tid) := by
  induction h with
  | nil => rfl
  | cons e rest ih =>
    by_cases hid : e.id = job.id
    · have het : ¬ (e.id = tid) := by
        rw [hid]
        exact hne
      rw [updateScrapingHistory, if_pos hid]
      rw [List.find?_cons_of_neg _ (by simp [het]),
        List.find?_cons_of_neg _ (by simp [het])]
    · rw [updateScrapingHistory, if_neg hid]
      by_cases het : e.id = tid
      · rw [List.find?_cons_of_pos _ (by simp [het]),
          List.find?_cons_of_pos _ (by simp [het])]
      · rw [List.find?_cons_of_neg _ (by simp [het]),
          List.find?_cons_of_neg _ (by simp [het])]
        exact ih

/-- A run of history updates for jobs with other ids does not disturb
the first entry carrying the given id. -/
theorem foldl_updateScrapingHistory_find_ne (jobs : List ScrapeJob)
    (h : List HistoryEntry) (tid : String)
    (hne : ∀ j ∈ jobs, j.id ≠ tid) :
    ((jobs.foldl updateScrapingHistory h).find? (fun e => e.id == tid))
      = h.find? (fun e => e.id == tid) := by
  induction jobs generalizing h with
  | nil => rfl
  | cons j rest ih =>
    rw [List.foldl_cons, ih _ (fun x hx => hne x (List.mem_cons_of_mem _ hx))]
    exact updateScrapingHistory_find_ne h j tid (hne j (List.mem_cons_self _ _))

/-- background.js updateScrapingHistory silently does nothing when no
history entry carries the id of the job (findIndex returns -1). -/
theorem updateScrapingHistory_of_find_none (h : List HistoryEntry)
    (job : ScrapeJob)
    (hf : h.find? (fun e => e.id == job.id) = none) :
    updateScrapingHistory h job = h := by
  induction h with
  | nil => rfl
  | cons e rest ih =>
    by_cases hid : e.id = job.id
    · rw [List.find?_cons_of_pos _ (by simp [hid])] at hf
      exact Option.noConfusion hf
    · rw [List.find?_cons_of_neg _ (by simp [hid])] at hf
      rw [updateScrapingHistory, if_neg hid, ih hf]

/-- Claim C6 counterexample: in evictedHistoryState the stale running
job (id job_0_1) has no entry left in the 50-capped scrapingHistory.
The watchdog tick removes it from the registry (its slot is freed and
the timeout finalization happens only on the discarded in-memory
value), but the history is unchanged and no session record is written:
nothing is persisted, refuting the unconditional claim that every
stale job is persisted with its synthetic error entry. -/
theorem watchdog_unpersisted_timeout_counterexample :
    (staleRunningJob.id = "job_0_1") ∧
    (evictedHistoryState.scrapingHistory.all (fun e => e.id != "job_0_1")) ∧
    ((checkStaleJobs evictedHistoryState (31 * 60 * 1000)).activeScrapeJobs
        = []) ∧
    ((checkStaleJobs evictedHistoryState (31 * 60 * 1000)).scrapingHistory
        = evictedHistoryState.scrapingHistory) ∧
    ((checkStaleJobs evictedHistoryState (31 * 60 * 1000)).savedResults = []) :=
  ⟨rfl, rfl, rfl, rfl, rfl⟩

/-- Claim C6 (amended): on a watchdog tick, every running job whose
last update is strictly older than the 30-minute threshold is removed
from the registry (its slot freed) and finalized in memory as timeout
with the synthetic inactivity error entry appended; the only
persistence attempted is the in-place rewrite of the job's entry in the
capped scrapingHistory (to status timeout, the tick time as end time,
and the extracted count), which takes effect exactly when that entry is
still present — updateScrapingHistory silently does nothing when the
entry is absent. A job whose last update is within the threshold (for
instance 29 minutes old) is left untouched. -/
theorem watchdog_stale_transition (st : ManagerState) (now t tabId : Nat)
    (job : ScrapeJob) (e0 : HistoryEntry)
    (hkeys : (st.activeScrapeJobs.map (fun p => p.1)).Nodup)
    (hget : mapGet st.activeScrapeJobs tabId = some job)
    (hupd : job.lastUpdate = some t) :
    (staleTime < now - t →
        mapHas (checkStaleJobs st now).activeScrapeJobs tabId = false) ∧
    (staleTime < now - t →
        (∀ p ∈ st.activeScrapeJobs, isStale now p.2 = true → p.2.id = job.id →
            p = (tabId, job)) →
        st.scrapingHistory.find? (fun e => e.id == job.id) = some e0 →
        (checkStaleJobs st now).scrapingHistory.find? (fun e => e.id == job.id)
          = some { e0 with status := "timeout", endTime := some now
                           extractedCount := some job.extractedJobs.length } ∧
        (finalizeStaleJob job now).errors
          = job.errors ++ [⟨now, "Job timed out due to inactivity"⟩] ∧
        (finalizeStaleJob job now).status = "timeout") ∧
    (∀ (h : List HistoryEntry) (j : ScrapeJob),
        h.find? (fun e => e.id == j.id) = none → updateScrapingHistory h j = h) ∧
    (now - t ≤ staleTime →
        mapGet (checkStaleJobs st now).activeScrapeJobs tabId = some job) := by
  have hstale : ∀ hlt : staleTime < now - t, isStale now job = true := by
    intro hlt
    simp [isStale, hupd, hlt]
  refine ⟨?_, ?_, updateScrapingHistory_of_find_none, ?_⟩
  · intro hlt
    have hmem : (tabId, job) ∈ st.activeScrapeJobs := mapGet_mem hget
    have hp : (fun p : Nat × ScrapeJob => !(isStale now p.2)) (tabId, job) = false := by
      simp [hstale hlt]
    exact mapHas_filter_drop _ hkeys hmem hp
  · intro hlt huniq hfind
    have hmem : (tabId, job) ∈ st.activeScrapeJobs := mapGet_mem hget
    have hjstale : isStale now job = true := hstale hlt
    have hpairmem : (tabId, job)
        ∈ st.activeScrapeJobs.filter (fun p => isStale now p.2) :=
      List.mem_filter.mpr ⟨hmem, hjstale⟩
    have hstalekeys : ((st.activeScrapeJobs.filter
        (fun p => isStale now p.2)).map (fun p => p.1)).Nodup :=
      ((List.filter_sublist _).map _).nodup hkeys
    obtain ⟨s, t2, hsplit⟩ := List.append_of_mem hpairmem
    have hmemstale : ∀ q ∈ st.activeScrapeJobs.filter (fun p => isStale now p.2),
        q ∈ st.activeScrapeJobs ∧ isStale now q.2 = true := by
      intro q hq
      exact ⟨(List.mem_filter.mp hq).1, (List.mem_filter.mp hq).2⟩
    have hkeysplit : ((s.map (fun p => p.1))
        ++ tabId :: (t2.map (fun p => p.1))).Nodup := by
      have hmapsplit : (st.activeScrapeJobs.filter
            (fun p => isStale now p.2)).map (fun p => p.1)
          = s.map (fun p => p.1) ++ tabId :: t2.map (fun p => p.1) := by
        rw [hsplit]
        simp
      rw [← hmapsplit]
      exact hstalekeys
    have hnotins : (tabId, job) ∉ s := by
      intro hin
      have h1 : tabId ∈ s.map (fun p => p.1) := List.mem_map_of_mem _ hin
      exact (List.nodup_append.mp hkeysplit).2.2 h1 (List.mem_cons_self _ _)
    have hnotint2 : (tabId, job) ∉ t2 := by
      intro hin
      have h1 : tabId ∈ t2.map (fun p => p.1) := List.mem_map_of_mem _ hin
      exact (List.nodup_cons.mp (List.nodup_append.mp hkeysplit).2.1).1 h1
    have hs_ne : ∀ q ∈ s, q.2.id ≠ job.id := by
      intro q hq heq
      have hqstale := hmemstale q (by
        rw [hsplit]
        exact List.mem_append_left _ hq)
      have hqeq := huniq q hqstale.1 hqstale.2 heq
      rw [hqeq] at hq
      exact hnotins hq
    have ht2_ne : ∀ q ∈ t2, q.2.id ≠ job.id := by
      intro q hq heq
      have hqstale := hmemstale q (by
        rw [hsplit]
        exact List.mem_append_right _ (List.mem_cons_of_mem _ hq))
      have hqeq := huniq q hqstale.1 hqstale.2 heq
      rw [hqeq] at hq
      exact hnotint2 hq
    have hhist : (checkStaleJobs st now).scrapingHistory
        = (t2.map (fun p => finalizeStaleJob p.2 now)).foldl updateScrapingHistory
            (updateScrapingHistory
              ((s.map (fun p => finalizeStaleJob p.2 now)).foldl
                updateScrapingHistory st.scrapingHistory)
              (finalizeStaleJob job now)) := by
      simp only [checkStaleJobs]
      rw [hsplit]
      simp [List.foldl_append]
    rw [hhist]
    refine ⟨?_, rfl, rfl⟩
    have hfind1 : ((s.map (fun p => finalizeStaleJob p.2 now)).foldl
          updateScrapingHistory st.scrapingHistory).find? (fun e => e.id == job.id)
        = some e0 := by
      rw [foldl_updateScrapingHistory_find_ne]
      · exact hfind
      · intro j hj
        rcases List.mem_map.mp hj with ⟨q, hq, hqj⟩
        rw [← hqj]
        exact hs_ne q hq
    rw [foldl_updateScrapingHistory_find_ne]
    · exact updateScrapingHistory_find _ (finalizeStaleJob job now) e0 hfind1
    · intro j hj
      rcases List.mem_map.mp hj with ⟨q, hq, hqj⟩
      rw [← hqj]
      exact ht2_ne q hq
  · intro hle
    have hp : (fun p : Nat × ScrapeJob => !(isStale now p.2)) (tabId, job) = true := by
      simp [isStale, hupd, Nat.not_lt.mpr hle]
    exact mapGet_filter_keep _ hget hp

/-- Claim C6 witness: in timeoutDrainState the running job last updated
at time 0 is stale at a tick 31 minutes later (slot freed, history
entry rewritten to timeout) and untouched at a tick 29 minutes later;
a no-op history update is exercised on evictedHistoryState. -/
theorem watchdog_stale_transition_witness :
    (mapHas (checkStaleJobs timeoutDrainState (31 * 60 * 1000)).activeScrapeJobs 1
        = false) ∧
    ((checkStaleJobs timeoutDrainState (31 * 60 * 1000)).scrapingHistory.find?
        (fun e => e.id == "job_0_1")
      = some ⟨"job_0_1", ⟨"Engineer", "City A"⟩, 0, "timeout",
          some (31 * 60 * 1000), some 0⟩) ∧
    (updateScrapingHistory evictedHistoryState.scrapingHistory
        (finalizeStaleJob staleRunningJob (31 * 60 * 1000))
      = evictedHistoryState.scrapingHistory) ∧
    (mapGet (checkStaleJobs timeoutDrainState (29 * 60 * 1000)).activeScrapeJobs 1
        = some staleRunningJob) := by
  have h31 := watchdog_stale_transition timeoutDrainState (31 * 60 * 1000) 0 1
    staleRunningJob ⟨"job_0_1", ⟨"Engineer", "City A"⟩, 0, "running", none, none⟩
    (by decide) (by decide) (by decide)
  have h29 := watchdog_stale_transition timeoutDrainState (29 * 60 * 1000) 0 1
    staleRunningJob ⟨"job_0_1", ⟨"Engineer", "City A"⟩, 0, "running", none, none⟩
    (by decide) (by decide) (by decide)
  refine ⟨h31.1 (by decide), ?_, ?_, h29.2.2.2 (by decide)⟩
  · exact (h31.2.1 (by decide) (by decide) (by decide)).1
  · exact h31.2.2.1 evictedHistoryState.scrapingHistory
      (finalizeStaleJob staleRunningJob (31 * 60 * 1000)) (by decide)

/-! Claim C2: quota-triggered eviction before the write. -/

instance : IsTotal IndexEntry (fun a b => a.timestamp ≤ b.timestamp) :=
  ⟨fun a b => Nat.le_total a.timestamp b.timestamp⟩

instance : IsTrans IndexEntry (fun a b => a.timestamp ≤ b.timestamp) :=
  ⟨fun _ _ _ hab hbc => Nat.le_trans hab hbc⟩

/-- The eviction sort really orders the index oldest first. -/
theorem sortByTimestamp_sorted (l : List IndexEntry) :
    (sortByTimestamp l).Sorted (fun a b => a.timestamp ≤ b.timestamp) :=
  List.sorted_insertionSort _ l

/-- The eviction sort is a permutation of the index. -/
theorem sortByTimestamp_perm (l : List IndexEntry) :
    (sortByTimestamp l).Perm l :=
  List.perm_insertionSort _ l

/-- performStorageCleanup in one equation: the oldest quarter of the
index (by timestamp) is deleted from both the record store and the
index, the index keeping its original order. -/
theorem performStorageCleanup_eq (st : StorageState) :
    performStorageCleanup st
      = { st with
          records := removeRecords st.records
            (((sortByTimestamp st.index).take (st.index.length / 4)).map
              (fun e => e.id))
          index := st.index.filter (fun e =>
            !((((sortByTimestamp st.index).take (st.index.length / 4)).map
                (fun e => e.id)).contains e.id)) } := by
  simp only [performStorageCleanup]
  split
  · rfl
  · rename_i hnotpos
    have hnil : (sortByTimestamp st.index).take (st.index.length / 4) = [] :=
      List.eq_nil_of_length_eq_zero (Nat.eq_zero_of_not_pos hnotpos)
    rw [hnil]
    simp [removeRecords]

/-- Claim C2: when byte usage is above 80 percent of quota, a save first
evicts exactly floor(0.25 times the indexed session count) of the
oldest indexed sessions, deleting their records and index entries, and
only then writes: the saved record and its index entry are present in
the final state while the evicted sessions are gone. -/
theorem quota_eviction_before_write (st : StorageState) (s : Session)
    (hquota : 80 * st.quota < 100 * st.bytesInUse)
    (hnodup : (st.index.map (fun e => e.id)).Nodup)
    (hcap : st.index.length ≤ 1000)
    (hfreshIdx : s.id ∉ st.index.map (fun e => e.id))
    (hfreshRec : s.id ∉ st.records.map (fun r => r.1)) :
    ((sortByTimestamp st.index).take (st.index.length / 4)).length
        = st.index.length / 4 ∧
    (∀ e ∈ (sortByTimestamp st.index).take (st.index.length / 4),
        e.id ∉ (saveScrapingSession st s).index.map (fun x => x.id) ∧
        e.id ∉ (saveScrapingSession st s).records.map (fun r => r.1)) ∧
    (saveScrapingSession st s).index.length
        = st.index.length - st.index.length / 4 + 1 ∧
    (s.id, optimizeDataForStorage s) ∈ (saveScrapingSession st s).records ∧
    mkIndexEntry s ∈ (saveScrapingSession st s).index := by
  set n := st.index.length with hn
  set k := n / 4 with hk
  set sorted := sortByTimestamp st.index with hsorted
  set evicted := sorted.take k with hevicted
  set evIds := evicted.map (fun e => e.id) with hevIds
  have hkn : k ≤ n := Nat.div_le_self n 4
  have hsortlen : sorted.length = n := (sortByTimestamp_perm st.index).length_eq
  have hevlen : evicted.length = k := by
    rw [hevicted, List.length_take, hsortlen]
    exact Nat.min_eq_left hkn
  have hperm : sorted.Perm st.index := sortByTimestamp_perm st.index
  have hids_nodup : (sorted.map (fun e => e.id)).Nodup :=
    ((hperm.map (fun e => e.id)).nodup_iff).mpr hnodup
  -- counting: exactly k index entries carry an evicted id
  have hcount : st.index.countP (fun e => evIds.contains e.id) = k := by
    have hcp : st.index.countP (fun e => evIds.contains e.id)
        = sorted.countP (fun e => evIds.contains e.id) :=
      (hperm.countP_eq _).symm
    have hsplit : sorted.countP (fun e => evIds.contains e.id)
        = (sorted.take k).countP (fun e => evIds.contains e.id)
          + (sorted.drop k).countP (fun e => evIds.contains e.id) := by
      conv_lhs => rw [← List.take_append_drop k sorted]
      exact List.countP_append _ _ _
    have h1 : (sorted.take k).countP (fun e => evIds.contains e.id)
        = (sorted.take k).length := by
      rw [List.countP_eq_length]
      intro a ha
      have : a.id ∈ evIds := by
        rw [hevIds, hevicted]
        exact List.mem_map_of_mem _ ha
      simpa using this
    have h2 : (sorted.drop k).countP (fun e => evIds.contains e.id) = 0 := by
      rw [List.countP_eq_zero]
      intro a ha hcontains
      have haid : a.id ∈ (sorted.drop k).map (fun e => e.id) :=
        List.mem_map_of_mem _ ha
      have hmemev : a.id ∈ evIds := by simpa using hcontains
      have hnodupsplit : ((sorted.take k).map (fun e => e.id)
          ++ (sorted.drop k).map (fun e => e.id)).Nodup := by
        rw [← List.map_append, List.take_append_drop]
        exact hids_nodup
      have hdisj := (List.nodup_append.mp hnodupsplit).2.2
      rw [hevIds, hevicted] at hmemev
      exact hdisj hmemev haid
    rw [hcp, hsplit, h1, h2, ← hevicted, hevlen]
    omega
  have hfiltlen : (st.index.filter (fun e => !(evIds.contains e.id))).length
      = n - k := by
    have htotal := List.length_eq_countP_add_countP
      (fun e => evIds.contains e.id) st.index
    have hfun : (fun (e : IndexEntry) => !(evIds.contains e.id))
        = (fun e => decide ¬(evIds.contains e.id = true)) := by
      funext e
      cases hc : evIds.contains e.id <;> simp [hc]
    rw [← List.countP_eq_length_filter, hfun]
    rw [← hn] at htotal
    omega
  -- the cleaned state
  have hclean : checkStorageQuota st
      = { st with
          records := removeRecords st.records evIds
          index := st.index.filter (fun e => !(evIds.contains e.id)) } := by
    rw [checkStorageQuota, if_pos hquota, performStorageCleanup_eq]
  -- every record key is an original key, never the fresh session id
  have hrec_keys : ∀ r ∈ removeRecords st.records evIds, r.1 ≠ s.id := by
    intro r hr heq
    have hrorig : r ∈ st.records := (List.mem_filter.mp hr).1
    have : r.1 ∈ st.records.map (fun x => x.1) := List.mem_map_of_mem _ hrorig
    rw [heq] at this
    exact hfreshRec this
  -- the write appends the fresh record
  have hsetr : setRecord (removeRecords st.records evIds) s.id
        (optimizeDataForStorage s)
      = removeRecords st.records evIds ++ [(s.id, optimizeDataForStorage s)] := by
    have hany : (removeRecords st.records evIds).any (fun r => r.1 == s.id)
        = false := by
      rw [List.any_eq_false]
      intro r hr
      simp only [beq_iff_eq]
      exact hrec_keys r hr
    have hcond : ¬ ((removeRecords st.records evIds).any (fun r => r.1 == s.id)
        = true) := by
      rw [hany]
      exact Bool.false_ne_true
    rw [setRecord, if_neg hcond]
  -- the upsert prepends the fresh index entry
  have hupsert : upsertEntry (st.index.filter (fun e => !(evIds.contains e.id)))
        (mkIndexEntry s)
      = mkIndexEntry s :: st.index.filter (fun e => !(evIds.contains e.id)) := by
    have hany : (st.index.filter (fun e => !(evIds.contains e.id))).any
        (fun x => x.id == (mkIndexEntry s).id) = false := by
      rw [List.any_eq_false]
      intro x hx
      have hxorig : x ∈ st.index := (List.mem_filter.mp hx).1
      have : x.id ∈ st.index.map (fun e => e.id) := List.mem_map_of_mem _ hxorig
      simp only [beq_iff_eq, mkIndexEntry]
      intro heq
      rw [heq] at this
      exact hfreshIdx this
    have hcond : ¬ ((st.index.filter (fun e => !(evIds.contains e.id))).any
        (fun x => x.id == (mkIndexEntry s).id) = true) := by
      rw [hany]
      exact Bool.false_ne_true
    rw [upsertEntry, if_neg hcond]
  -- the trim does not fire: the upserted index is within the cap
  have htrim : ¬ (1000
      < (mkIndexEntry s :: st.index.filter (fun e => !(evIds.contains e.id))).length) := by
    rw [List.length_cons, hfiltlen]
    by_cases hk0 : k = 0
    · have hdz : n / 4 = 0 := by
        rw [← hk]
        exact hk0
      have hnlt : n < 4 := (Nat.div_eq_zero_iff (by omega : 0 < 4)).mp hdz
      omega
    · omega
  -- the final state in one equation
  have hfinal : saveScrapingSession st s
      = { st with
          records := removeRecords st.records evIds
            ++ [(s.id, optimizeDataForStorage s)]
          index := mkIndexEntry s
            :: st.index.filter (fun e => !(evIds.contains e.id)) } := by
    rw [saveScrapingSession, hclean]
    simp only [hsetr]
    rw [updateScrapingIndex, updateScrapingIndexCap]
    simp only [hupsert, maxIndexEntries]
    rw [if_neg htrim]
  refine ⟨hevlen, ?_, ?_, ?_, ?_⟩
  · intro e he
    have heid : e.id ∈ evIds := by
      rw [hevIds]
      exact List.mem_map_of_mem _ he
    have heorig : e ∈ st.index := hperm.subset (List.take_subset _ _ he)
    have heid_ne : e.id ≠ s.id := by
      intro heq
      have : e.id ∈ st.index.map (fun x => x.id) := List.mem_map_of_mem _ heorig
      rw [heq] at this
      exact hfreshIdx this
    constructor
    · rw [hfinal]
      simp only [List.map_cons, List.mem_cons]
      rintro (hcase | hcase)
      · exact heid_ne (by simpa [mkIndexEntry] using hcase)
      · rcases List.mem_map.mp hcase with ⟨x, hx, hxid⟩
        have hxpass := (List.mem_filter.mp hx).2
        rw [hxid] at hxpass
        simp at hxpass
        exact hxpass heid
    · rw [hfinal]
      simp only [List.map_append, List.mem_append]
      rintro (hcase | hcase)
      · rcases List.mem_map.mp hcase with ⟨r, hr, hrid⟩
        have hrpass := (List.mem_filter.mp hr).2
        rw [hrid] at hrpass
        simp at hrpass
        exact hrpass heid
      · simp at hcase
        exact heid_ne hcase
  · rw [hfinal]
    simp only [List.length_cons, hfiltlen]
  · rw [hfinal]
    simp
  · rw [hfinal]
    exact List.mem_cons_self _ _

/-- Claim C2 witness: eight indexed sessions at 85 percent usage; the
save evicts floor(8 times 0.25) = 2 oldest sessions (ids s0 and s1,
timestamps 0 and 10) before writing the new session. -/
theorem quota_eviction_before_write_witness :
    (((sortByTimestamp quotaDemoState.index).take
        (quotaDemoState.index.length / 4)).length
      = quotaDemoState.index.length / 4) ∧
    (quotaDemoState.index.length / 4 = 2) ∧
    (∀ e ∈ (sortByTimestamp quotaDemoState.index).take
        (quotaDemoState.index.length / 4),
        e.id ∉ (saveScrapingSession quotaDemoState
          ⟨"new", 999, 999, "completed", []⟩).index.map (fun x => x.id) ∧
        e.id ∉ (saveScrapingSession quotaDemoState
          ⟨"new", 999, 999, "completed", []⟩).records.map (fun r => r.1)) ∧
    ((saveScrapingSession quotaDemoState
        ⟨"new", 999, 999, "completed", []⟩).index.length = 7) ∧
    (("new", optimizeDataForStorage ⟨"new", 999, 999, "completed", []⟩)
        ∈ (saveScrapingSession quotaDemoState
            ⟨"new", 999, 999, "completed", []⟩).records) := by
  have h := quota_eviction_before_write quotaDemoState
    ⟨"new", 999, 999, "completed", []⟩
    (by decide) (by decide) (by decide) (by decide) (by decide)
  exact ⟨h.1, by decide, h.2.1, h.2.2.1, h.2.2.2.1⟩

end LinkedInScraper
